import Mathlib

/-!
Shallow embedding of the classroom-booking service (`src/main.py`) and
verification of its specification.

Modelling conventions:
* Calendar dates are abstract day numbers (`Date := Nat`); the source only
  compares dates for equality and order.
* Wall-clock times of bookings are minutes since midnight once parsed; the
  current wall-clock time `now` is in seconds since midnight, because
  `datetime.now().time()` carries sub-minute precision while parsed "HH:MM"
  times have zero seconds (comparison multiplies minutes by 60).
* Python's `bookings` dict is an insertion-ordered association list with
  unique keys.
* `HTTPException` / pydantic validation failures become values of `Err`.
* Each endpoint returns its result together with the (possibly updated)
  state; every failing path returns the state unchanged, mirroring the fact
  that in the source each handler mutates the dict only as its final step.
-/

/-- Error kinds raised by the service (pydantic validators and
`HTTPException`s, identified by their detail message / status code). -/
inductive Err where
  | malformedTime
  | outOfHours
  | notAligned
  | pastTime
  | tooShort
  | invalidClassroom
  | pastDate
  | conflict
  | notFound
  | forbidden
  | idExhausted
  deriving DecidableEq, Repr

/-- Calendar dates, abstracted to day numbers with their usual order. -/
abbrev Date := Nat

/-- One stored booking record (an entry of the `bookings` dict). -/
structure Booking where
  id : Nat
  name : String
  classroom : String
  booking_date : Date
  start_time : String
  end_time : String
  deriving DecidableEq, Repr

/-- The `bookings` dict: insertion-ordered association list keyed by id. -/
abbrev State := List (Nat × Booking)

/-- Seed state of the service (the four bookings the module starts with);
`date(2024, 11, 12)` is encoded as the day number 20241112. -/
def seedState : State :=
  [ (1, ⟨1, "Joel", "A401", 20241112, "08:30", "10:00"⟩),
    (2, ⟨2, "Sami", "C301", 20241112, "08:30", "10:00"⟩),
    (3, ⟨3, "Sami", "B204", 20241112, "08:30", "10:00"⟩),
    (4, ⟨4, "Karin", "A401", 20241112, "10:00", "15:00"⟩) ]

/-- The fixed classroom catalog (`classrooms` list in the source). -/
def classrooms : List String :=
  [ "A101", "A102", "A103", "A104", "B101", "B102", "B103", "B104",
    "C101", "C102", "C103", "C104", "A201", "A202", "A203", "A204",
    "B201", "B202", "B203", "B204", "C201", "C202", "C203", "C204",
    "A301", "A302", "A303", "A304", "B301", "B302", "B303", "B304",
    "C301", "C302", "C303", "C304", "A401", "A402", "A403", "A404",
    "B401", "B402", "B403", "B404", "C401", "C402", "C403", "C404" ]

/-- Python's `str.upper` restricted to the character-wise core mapping. -/
def strUpper (s : String) : String := String.mk (s.data.map Char.toUpper)

/-- Python's `str.lower` restricted to the character-wise core mapping. -/
def strLower (s : String) : String := String.mk (s.data.map Char.toLower)

/-- Value of a 1- or 2-digit numeral, as accepted by `strptime`'s `%H`/`%M`
directives: `none` on the empty string, more than two characters, or a
non-digit. -/
def digitsVal (cs : List Char) : Option Nat :=
  if cs ≠ [] ∧ cs.length ≤ 2 ∧ cs.all Char.isDigit then
    some (cs.foldl (fun a c => a * 10 + (c.toNat - 48)) 0)
  else none

/-- Splits a character list at its first colon; `none` when no colon occurs. -/
def splitColon : List Char → Option (List Char × List Char)
  | [] => none
  | c :: rest =>
    if c = ':' then some ([], rest)
    else (splitColon rest).map (fun p => (c :: p.1, p.2))

/-- `datetime.strptime(s, "%H:%M").time()` as minutes since midnight:
1–2 digit hour, a colon, 1–2 digit minute, nothing else, hour ≤ 23,
minute ≤ 59. -/
def parseTime (s : String) : Option Nat :=
  match splitColon s.data with
  | none => none
  | some (h, m) =>
    match digitsVal h, digitsVal m with
    | some hh, some mm =>
      if hh ≤ 23 ∧ mm ≤ 59 then some (hh * 60 + mm) else none
    | _, _ => none

/-- `convert_to_time_objects`: parses both time strings, raising 422
(`malformedTime`) when either fails to parse — including the `TypeError`
branch when a string is absent (`None` in the source). -/
def convert_to_time_objects (s e : Option String) : Except Err (Nat × Nat) :=
  match s, e with
  | some a, some b =>
    match parseTime a, parseTime b with
    | some x, some y => .ok (x, y)
    | _, _ => .error .malformedTime
  | _, _ => .error .malformedTime

/-- `validate_times`: operating hours 07:00–18:00, half-hour alignment,
not-in-the-past when booked for today, and duration at least one hour
via same-day datetime subtraction. -/
def validate_times (search_date today : Date) (now : Nat) (s e : Option String) :
    Except Err Unit :=
  match convert_to_time_objects s e with
  | .error er => .error er
  | .ok (st, et) =>
    if st < 420 ∨ 1080 < et then .error .outOfHours
    else if ¬ ((st % 60 = 0 ∨ st % 60 = 30) ∧ (et % 60 = 0 ∨ et % 60 = 30)) then
      .error .notAligned
    else if search_date = today ∧ (st * 60 < now ∨ et * 60 < now) then
      .error .pastTime
    else if (et : Int) - (st : Int) < 60 then .error .tooShort
    else .ok ()

/-- Key membership in the bookings dict (`booking_id in bookings`). -/
def keyMem (d : Nat) (st : State) : Bool := st.any (fun p => p.1 == d)

/-- `bookings.get(id)`; with unique keys, first-match lookup on the
association list. (The falsy test `not bookings.get(id)` in the source
coincides with absence, since stored records are non-empty dicts.) -/
def lookup (st : State) (i : Nat) : Option Booking :=
  (st.find? (fun p => p.1 == i)).map (fun p => p.2)

/-- The id-generation loop of `create_booking`, with the successive values
of `random.randint(10000000, 99999999)` supplied as a list: the loop keeps
the first draw that is not already a key. `none` models exhausting the
supplied draws (the source would keep drawing). -/
def generate_id (draws : List Nat) (st : State) : Option Nat :=
  draws.find? (fun d => ! keyMem d st)

/-- The same loop against an infinite stream of draws `f`, unrolled `fuel`
times starting from draw index `k`; used to study termination. -/
def genIdStream (f : Nat → Nat) (st : State) : Nat → Nat → Option Nat
  | 0, _ => none
  | fuel + 1, k => if keyMem (f k) st then genIdStream f st fuel (k + 1) else some (f k)

/-- Body of the loop of `get_unavailable_classrooms`: walks the bookings in
insertion order; skips the excluded id; for each booking on the queried
date parses its stored times (propagating the 422 on failure) and appends
the uppercased classroom when the stored interval strictly overlaps the
query interval `[qs, qe)`. -/
def unavailAux (d : Date) (qs qe : Nat) (ex : Option Nat) :
    List (Nat × Booking) → Except Err (List String)
  | [] => .ok []
  | (i, b) :: rest =>
    if ex = some i then unavailAux d qs qe ex rest
    else if b.booking_date = d then
      match parseTime b.start_time, parseTime b.end_time with
      | some s, some e =>
        match unavailAux d qs qe ex rest with
        | .error er => .error er
        | .ok l => .ok (if qs < e ∧ s < qe then strUpper b.classroom :: l else l)
      | _, _ => .error .malformedTime
    else unavailAux d qs qe ex rest

/-- `get_unavailable_classrooms`: parses the query times then scans all
bookings for strictly overlapping ones on the same date. -/
def get_unavailable_classrooms (st : State) (search_date : Date)
    (start_time_str end_time_str : String) (exclude_id : Option Nat) :
    Except Err (List String) :=
  match convert_to_time_objects (some start_time_str) (some end_time_str) with
  | .error er => .error er
  | .ok (qs, qe) => unavailAux search_date qs qe exclude_id st

/-- A create request: the body of `POST /create_booking` (a client-supplied
`id` is ignored by the endpoint and omitted here). -/
structure BookingReq where
  name : String
  classroom : String
  booking_date : Date
  start_time : String
  end_time : String
  deriving DecidableEq, Repr

/-- Pydantic validation of the `Booking` model, validators in field order:
`validate_classroom` (catalog membership, uppercasing), then
`validate_booking_date` (not in the past), then `validate_time_string` on
`end_time` (parse both strings; `booking_date` being present, run
`validate_times`). -/
def validateBookingModel (r : BookingReq) (today : Date) (now : Nat) :
    Except Err BookingReq :=
  if strUpper r.classroom ∉ classrooms then .error .invalidClassroom
  else if r.booking_date < today then .error .pastDate
  else
    match convert_to_time_objects (some r.start_time) (some r.end_time) with
    | .error er => .error er
    | .ok _ =>
      match validate_times r.booking_date today now (some r.start_time) (some r.end_time) with
      | .error er => .error er
      | .ok _ => .ok { r with classroom := strUpper r.classroom }

/-- An update request: the body of `PUT .../change_booking`, every field
optional (`none` = not supplied, pydantic `exclude_unset`). -/
structure UpdateReq where
  name : Option String
  classroom : Option String
  booking_date : Option Date
  start_time : Option String
  end_time : Option String
  deriving DecidableEq, Repr

/-- `end_time` validator stage of `UpdateBooking` validation (runs last, in
field order). When `end_time` is supplied, its inherited validator reads
`start_time` and `booking_date` from the partially validated data — both
may be absent (`None`): a missing `start_time` makes `strptime` raise
`TypeError` (→ 422), and a missing `booking_date` skips `validate_times`. -/
def validateUpdateModelTimes (r : UpdateReq) (today : Date) (now : Nat) :
    Except Err UpdateReq :=
  match r.end_time with
  | some e =>
    match convert_to_time_objects r.start_time (some e) with
    | .error er => .error er
    | .ok _ =>
      match r.booking_date with
      | some d =>
        match validate_times d today now r.start_time (some e) with
        | .error er => .error er
        | .ok _ => .ok { r with classroom := r.classroom.map strUpper }
      | none => .ok { r with classroom := r.classroom.map strUpper }
  | none => .ok { r with classroom := r.classroom.map strUpper }

/-- Date-validator stage of `UpdateBooking` validation (runs before the
`end_time` stage in field order). -/
def validateUpdateModelDate (r : UpdateReq) (today : Date) (now : Nat) :
    Except Err UpdateReq :=
  match r.booking_date with
  | some d =>
    if d < today then .error .pastDate else validateUpdateModelTimes r today now
  | none => validateUpdateModelTimes r today now

/-- Pydantic validation of the `UpdateBooking` model: inherited validators
run only on the fields explicitly supplied, in field order (classroom,
booking date, end time). -/
def validateUpdateModel (r : UpdateReq) (today : Date) (now : Nat) :
    Except Err UpdateReq :=
  match r.classroom with
  | some c =>
    if strUpper c ∉ classrooms then .error .invalidClassroom
    else validateUpdateModelDate r today now
  | none => validateUpdateModelDate r today now

/-- `bookings[id].copy()` followed by `.update(new_data)`: every field the
request supplied (already validated) replaces the stored one; `id` is
excluded from the dump and never changes. -/
def mergeBooking (old : Booking) (u : UpdateReq) : Booking :=
  { id := old.id
    name := u.name.getD old.name
    classroom := u.classroom.getD old.classroom
    booking_date := u.booking_date.getD old.booking_date
    start_time := u.start_time.getD old.start_time
    end_time := u.end_time.getD old.end_time }

/-- `GET /bookings/{booking_id}`: 404 when absent, 403 when the
case-insensitive owner-name check fails, otherwise the stored record. -/
def get_booking (st : State) (booking_id : Nat) (name : String) :
    Except Err Booking × State :=
  match lookup st booking_id with
  | none => (.error .notFound, st)
  | some b =>
    if strLower b.name ≠ strLower name then (.error .forbidden, st)
    else (.ok b, st)

/-- `POST /create_booking`: pydantic validation of the body, conflict check
against the availability scan, id generation, insertion. -/
def create_booking (st : State) (raw : BookingReq) (today : Date) (now : Nat)
    (draws : List Nat) : Except Err Booking × State :=
  match validateBookingModel raw today now with
  | .error er => (.error er, st)
  | .ok b =>
    match get_unavailable_classrooms st b.booking_date b.start_time b.end_time none with
    | .error er => (.error er, st)
    | .ok unavail =>
      if strUpper b.classroom ∈ unavail then (.error .conflict, st)
      else
        match generate_id draws st with
        | none => (.error .idExhausted, st)
        | some booking_id =>
          let stored : Booking :=
            ⟨booking_id, b.name, b.classroom, b.booking_date, b.start_time, b.end_time⟩
          (.ok stored, st ++ [(booking_id, stored)])

/-- `PUT /bookings/{booking_id}/change_booking`: pydantic validation of the
partial body (happens before the handler runs), then 404/403 checks, merge
onto a copy of the stored record, full `validate_times` and conflict check
(excluding this id) against the merged record, then commit. -/
def change_booking (st : State) (booking_id : Nat) (raw : UpdateReq)
    (name : String) (today : Date) (now : Nat) : Except Err Booking × State :=
  match validateUpdateModel raw today now with
  | .error er => (.error er, st)
  | .ok u =>
    match lookup st booking_id with
    | none => (.error .notFound, st)
    | some old =>
      if strLower old.name ≠ strLower name then (.error .forbidden, st)
      else
        match validate_times (mergeBooking old u).booking_date today now
            (some (mergeBooking old u).start_time) (some (mergeBooking old u).end_time) with
        | .error er => (.error er, st)
        | .ok _ =>
          match get_unavailable_classrooms st (mergeBooking old u).booking_date
              (mergeBooking old u).start_time (mergeBooking old u).end_time
              (some booking_id) with
          | .error er => (.error er, st)
          | .ok unavail =>
            if strUpper (mergeBooking old u).classroom ∈ unavail then (.error .conflict, st)
            else
              (.ok (mergeBooking old u),
               st.map (fun p => if p.1 = booking_id then (p.1, mergeBooking old u) else p))

/-- `DELETE /bookings/{booking_id}`: 404 when absent, 403 on owner-name
mismatch, otherwise removes the record. -/
def delete_booking (st : State) (booking_id : Nat) (name : String) :
    Except Err Unit × State :=
  match lookup st booking_id with
  | none => (.error .notFound, st)
  | some b =>
    if strLower b.name ≠ strLower name then (.error .forbidden, st)
    else (.ok (), st.filter (fun p => p.1 ≠ booking_id))

/-- Keys of the bookings dict, in insertion order. -/
def keysOf (st : State) : List Nat := st.map (fun p => p.1)

/-- The half-open `[start_time, end_time)` intervals of two bookings share a
point (both parse and `max start < min end`). -/
def timesOverlap (b c : Booking) : Prop :=
  ∃ s e s' e', parseTime b.start_time = some s ∧ parseTime b.end_time = some e ∧
    parseTime c.start_time = some s' ∧ parseTime c.end_time = some e' ∧
    max s s' < min e e'

/-- No two distinct stored bookings with the same classroom and date have
overlapping `[start_time, end_time)` intervals. -/
def NoConflicts (st : State) : Prop :=
  ∀ i b j c, (i, b) ∈ st → (j, c) ∈ st → i ≠ j →
    b.classroom = c.classroom → b.booking_date = c.booking_date →
    ¬ timesOverlap b c

/-- Full state invariant: unique keys, catalog (hence uppercase) classrooms,
and no conflicting pair. -/
def StateInv (st : State) : Prop :=
  (keysOf st).Nodup ∧ (∀ p ∈ st, (Prod.snd p).classroom ∈ classrooms) ∧ NoConflicts st

/-- States reachable from the seed state by any sequence of create, update,
and delete requests (succeeding or failing), at arbitrary request dates and
clock readings. -/
inductive Reachable : State → Prop where
  | seed : Reachable seedState
  | create {st st' raw today now draws r} : Reachable st →
      create_booking st raw today now draws = (r, st') → Reachable st'
  | update {st st' booking_id raw name today now r} : Reachable st →
      change_booking st booking_id raw name today now = (r, st') → Reachable st'
  | remove {st st' booking_id name r} : Reachable st →
      delete_booking st booking_id name = (r, st') → Reachable st'

theorem catalog_upper : ∀ c ∈ classrooms, strUpper c = c := by decide

theorem lookup_mem {st : State} {i : Nat} {b : Booking}
    (h : lookup st i = some b) : (i, b) ∈ st := by
  unfold lookup at h
  cases hf : st.find? (fun p => p.1 == i) with
  | none => simp [hf] at h
  | some p =>
    simp [hf] at h
    have hm := List.mem_of_find?_eq_some hf
    have hp := List.find?_some hf
    simp at hp
    cases p with
    | mk k v => simp at hp h; subst hp; rw [h] at hm; exact hm

theorem keyMem_iff {d : Nat} {st : State} : keyMem d st = true ↔ d ∈ keysOf st := by
  unfold keyMem keysOf
  simp [List.any_eq_true]

theorem unavailAux_sound {d qs qe : Nat} {ex : Option Nat} {l : List (Nat × Booking)}
    {out : List String} (h : unavailAux d qs qe ex l = .ok out) :
    ∀ i b, (i, b) ∈ l → ex ≠ some i → b.booking_date = d →
    ∃ s e, parseTime b.start_time = some s ∧ parseTime b.end_time = some e ∧
      (qs < e ∧ s < qe → strUpper b.classroom ∈ out) := by
  induction l generalizing out with
  | nil => intro i b hmem _ _; simp at hmem
  | cons p rest ih =>
    obtain ⟨j, c⟩ := p
    intro i b hmem hex hdate
    simp only [unavailAux] at h
    rw [List.mem_cons] at hmem
    by_cases hj : ex = some j
    · rw [if_pos hj] at h
      rcases hmem with hmem | hmem
      · exfalso
        injection hmem with h1 h2
        subst h1
        exact hex hj
      · exact ih h i b hmem hex hdate
    · rw [if_neg hj] at h
      by_cases hd : c.booking_date = d
      · rw [if_pos hd] at h
        cases hs : parseTime c.start_time with
        | none => rw [hs] at h; simp at h
        | some s0 =>
          cases he : parseTime c.end_time with
          | none => rw [hs, he] at h; simp at h
          | some e0 =>
            rw [hs, he] at h
            cases hrec : unavailAux d qs qe ex rest with
            | error er => rw [hrec] at h; simp at h
            | ok l0 =>
              rw [hrec] at h
              simp only [Except.ok.injEq] at h
              rcases hmem with hmem | hmem
              · injection hmem with h1 h2
                subst h2
                refine ⟨s0, e0, hs, he, ?_⟩
                intro hcond
                rw [← h, if_pos hcond]
                exact List.mem_cons_self _ _
              · obtain ⟨s, e, hs1, he1, hmem1⟩ := ih hrec i b hmem hex hdate
                refine ⟨s, e, hs1, he1, ?_⟩
                intro hcond
                have := hmem1 hcond
                rw [← h]
                by_cases hc : qs < e0 ∧ s0 < qe
                · rw [if_pos hc]; exact List.mem_cons_of_mem _ this
                · rw [if_neg hc]; exact this
      · rw [if_neg hd] at h
        rcases hmem with hmem | hmem
        · exfalso
          injection hmem with h1 h2
          subst h2
          exact hd hdate
        · exact ih h i b hmem hex hdate

theorem unavailAux_mem {d qs qe : Nat} {ex : Option Nat} {l : List (Nat × Booking)}
    {out : List String} (h : unavailAux d qs qe ex l = .ok out) :
    ∀ cl, cl ∈ out ↔ ∃ i b s e, (i, b) ∈ l ∧ ex ≠ some i ∧ b.booking_date = d ∧
      parseTime b.start_time = some s ∧ parseTime b.end_time = some e ∧
      qs < e ∧ s < qe ∧ cl = strUpper b.classroom := by
  induction l generalizing out with
  | nil =>
    simp only [unavailAux, Except.ok.injEq] at h
    subst h
    intro cl
    simp
  | cons p rest ih =>
    obtain ⟨j, c⟩ := p
    intro cl
    simp only [unavailAux] at h
    by_cases hj : ex = some j
    · rw [if_pos hj] at h
      rw [ih h cl]
      constructor
      · rintro ⟨i, b, s, e, hmem, hex, rest'⟩
        exact ⟨i, b, s, e, List.mem_cons_of_mem _ hmem, hex, rest'⟩
      · rintro ⟨i, b, s, e, hmem, hex, rest'⟩
        rw [List.mem_cons] at hmem
        rcases hmem with hmem | hmem
        · exfalso
          injection hmem with h1 h2
          subst h1
          exact hex hj
        · exact ⟨i, b, s, e, hmem, hex, rest'⟩
    · rw [if_neg hj] at h
      by_cases hd : c.booking_date = d
      · rw [if_pos hd] at h
        cases hs : parseTime c.start_time with
        | none => rw [hs] at h; simp at h
        | some s0 =>
          cases he : parseTime c.end_time with
          | none => rw [hs, he] at h; simp at h
          | some e0 =>
            rw [hs, he] at h
            cases hrec : unavailAux d qs qe ex rest with
            | error er => rw [hrec] at h; simp at h
            | ok l0 =>
              rw [hrec] at h
              simp only [Except.ok.injEq] at h
              subst h
              constructor
              · intro hmem
                by_cases hc : qs < e0 ∧ s0 < qe
                · rw [if_pos hc, List.mem_cons] at hmem
                  rcases hmem with hmem | hmem
                  · exact ⟨j, c, s0, e0, List.mem_cons_self _ _, hj, hd, hs, he,
                      hc.1, hc.2, hmem⟩
                  · obtain ⟨i, b, s, e, hm, hx, hdd, hss, hee, h1, h2, h3⟩ :=
                      (ih hrec cl).mp hmem
                    exact ⟨i, b, s, e, List.mem_cons_of_mem _ hm, hx, hdd, hss, hee,
                      h1, h2, h3⟩
                · rw [if_neg hc] at hmem
                  obtain ⟨i, b, s, e, hm, hx, hdd, hss, hee, h1, h2, h3⟩ :=
                    (ih hrec cl).mp hmem
                  exact ⟨i, b, s, e, List.mem_cons_of_mem _ hm, hx, hdd, hss, hee,
                    h1, h2, h3⟩
              · rintro ⟨i, b, s, e, hm, hx, hdd, hss, hee, h1, h2, h3⟩
                rw [List.mem_cons] at hm
                rcases hm with hm | hm
                · injection hm with hji hbc
                  subst hbc
                  rw [hss] at hs
                  rw [hee] at he
                  injection hs with hs
                  injection he with he
                  subst hs
                  subst he
                  rw [if_pos ⟨h1, h2⟩]
                  rw [h3]
                  exact List.mem_cons_self _ _
                · have := (ih hrec cl).mpr ⟨i, b, s, e, hm, hx, hdd, hss, hee, h1, h2, h3⟩
                  by_cases hc : qs < e0 ∧ s0 < qe
                  · rw [if_pos hc]; exact List.mem_cons_of_mem _ this
                  · rw [if_neg hc]; exact this
      · rw [if_neg hd] at h
        rw [ih h cl]
        constructor
        · rintro ⟨i, b, s, e, hm, rest'⟩
          exact ⟨i, b, s, e, List.mem_cons_of_mem _ hm, rest'⟩
        · rintro ⟨i, b, s, e, hm, hx, hdd, rest'⟩
          rw [List.mem_cons] at hm
          rcases hm with hm | hm
          · exfalso
            injection hm with h1 h2
            subst h2
            exact hd hdd
          · exact ⟨i, b, s, e, hm, hx, hdd, rest'⟩
theorem validateBookingModel_ok {r b : BookingReq} {today : Date} {now : Nat}
    (h : validateBookingModel r today now = .ok b) :
    b = { r with classroom := strUpper r.classroom } ∧ strUpper r.classroom ∈ classrooms ∧
    ¬ r.booking_date < today ∧
    validate_times r.booking_date today now (some r.start_time) (some r.end_time) = .ok () := by
  unfold validateBookingModel at h
  repeat' split at h
  all_goals simp_all

theorem validateUpdateModelTimes_ok {r u : UpdateReq} {today : Date} {now : Nat}
    (h : validateUpdateModelTimes r today now = .ok u) :
    u = { r with classroom := r.classroom.map strUpper } := by
  unfold validateUpdateModelTimes at h
  repeat' split at h
  all_goals simp_all

theorem validateUpdateModel_ok {r u : UpdateReq} {today : Date} {now : Nat}
    (h : validateUpdateModel r today now = .ok u) :
    u = { r with classroom := r.classroom.map strUpper } ∧
    (∀ c, r.classroom = some c → strUpper c ∈ classrooms) := by
  unfold validateUpdateModel validateUpdateModelDate at h
  repeat' split at h
  all_goals first
    | (have hu := validateUpdateModelTimes_ok h; simp_all)
    | (exfalso; simp_all)
theorem create_err_state {st st' : State} {raw : BookingReq} {today : Date} {now : Nat}
    {draws : List Nat} {er : Err}
    (h : create_booking st raw today now draws = (.error er, st')) : st' = st := by
  unfold create_booking at h
  repeat' split at h
  all_goals simp_all

theorem create_ok_shape {st st' : State} {raw : BookingReq} {today : Date} {now : Nat}
    {draws : List Nat} {stored : Booking}
    (h : create_booking st raw today now draws = (.ok stored, st')) :
    ∃ b booking_id unavail,
      validateBookingModel raw today now = .ok b ∧
      get_unavailable_classrooms st b.booking_date b.start_time b.end_time none = .ok unavail ∧
      strUpper b.classroom ∉ unavail ∧
      generate_id draws st = some booking_id ∧
      stored = ⟨booking_id, b.name, b.classroom, b.booking_date, b.start_time, b.end_time⟩ ∧
      st' = st ++ [(booking_id, stored)] := by
  unfold create_booking at h
  split at h
  · simp at h
  · rename_i b heq
    split at h
    · simp at h
    · rename_i unavail heq2
      split at h
      · simp at h
      · rename_i hm
        split at h
        · simp at h
        · rename_i bid heq3
          simp only [Prod.mk.injEq, Except.ok.injEq] at h
          obtain ⟨h1, h2⟩ := h
          exact ⟨b, bid, unavail, heq, heq2, hm, heq3, h1.symm, by rw [← h1]; exact h2.symm⟩

theorem change_err_state {st st' : State} {booking_id : Nat} {raw : UpdateReq}
    {name : String} {today : Date} {now : Nat} {er : Err}
    (h : change_booking st booking_id raw name today now = (.error er, st')) : st' = st := by
  unfold change_booking at h
  repeat' split at h
  all_goals simp_all

theorem change_ok_shape {st st' : State} {booking_id : Nat} {raw : UpdateReq}
    {name : String} {today : Date} {now : Nat} {merged : Booking}
    (h : change_booking st booking_id raw name today now = (.ok merged, st')) :
    ∃ u old unavail,
      validateUpdateModel raw today now = .ok u ∧
      lookup st booking_id = some old ∧
      strLower old.name = strLower name ∧
      merged = mergeBooking old u ∧
      validate_times merged.booking_date today now
        (some merged.start_time) (some merged.end_time) = .ok () ∧
      get_unavailable_classrooms st merged.booking_date merged.start_time
        merged.end_time (some booking_id) = .ok unavail ∧
      strUpper merged.classroom ∉ unavail ∧
      st' = st.map (fun p => if p.1 = booking_id then (p.1, merged) else p) := by
  unfold change_booking at h
  split at h
  · simp at h
  · rename_i u hu
    split at h
    · simp at h
    · rename_i old hold
      split at h
      · simp at h
      · rename_i hname
        split at h
        · simp at h
        · rename_i v hvt
          split at h
          · simp at h
          · rename_i unavail hun
            split at h
            · simp at h
            · rename_i hm
              simp only [Prod.mk.injEq, Except.ok.injEq] at h
              obtain ⟨h1, h2⟩ := h
              rw [not_not] at hname
              subst h1
              exact ⟨u, old, unavail, hu, hold, hname, rfl, (by cases v; exact hvt),
                hun, hm, h2.symm⟩

theorem delete_err_state {st st' : State} {booking_id : Nat} {name : String} {er : Err}
    (h : delete_booking st booking_id name = (.error er, st')) : st' = st := by
  unfold delete_booking at h
  repeat' split at h
  all_goals simp_all

theorem delete_ok_shape {st st' : State} {booking_id : Nat} {name : String}
    (h : delete_booking st booking_id name = (.ok (), st')) :
    ∃ b, lookup st booking_id = some b ∧ strLower b.name = strLower name ∧
      st' = st.filter (fun p => p.1 ≠ booking_id) := by
  unfold delete_booking at h
  split at h
  · simp at h
  · rename_i b hb
    split at h
    · simp at h
    · rename_i hname
      rw [not_not] at hname
      simp only [Prod.mk.injEq] at h
      exact ⟨b, hb, hname, h.2.symm⟩
theorem convert_ok {s e : Option String} {p : Nat × Nat}
    (h : convert_to_time_objects s e = .ok p) :
    ∃ a b, s = some a ∧ e = some b ∧ parseTime a = some p.1 ∧ parseTime b = some p.2 := by
  unfold convert_to_time_objects at h
  repeat' split at h
  all_goals simp_all
  all_goals (rw [← h]; exact ⟨rfl, rfl⟩)

theorem get_unavailable_ok {st : State} {d : Date} {ss es : String} {ex : Option Nat}
    {out : List String} (h : get_unavailable_classrooms st d ss es ex = .ok out) :
    ∃ qs qe, parseTime ss = some qs ∧ parseTime es = some qe ∧
      unavailAux d qs qe ex st = .ok out := by
  unfold get_unavailable_classrooms at h
  split at h
  · simp at h
  · rename_i qs qe hp
    obtain ⟨a, b, ha, hb, h1, h2⟩ := convert_ok hp
    injection ha with ha
    injection hb with hb
    subst ha
    subst hb
    exact ⟨qs, qe, h1, h2, h⟩

theorem generate_id_some {draws : List Nat} {st : State} {bid : Nat}
    (h : generate_id draws st = some bid) : keyMem bid st = false ∧ bid ∈ draws := by
  unfold generate_id at h
  have h1 := List.find?_some h
  have h2 := List.mem_of_find?_eq_some h
  simp at h1
  exact ⟨h1, h2⟩

theorem mem_map_replace {st : State} {bid : Nat} {m : Booking} {i : Nat} {x : Booking}
    (h : (i, x) ∈ st.map (fun p => if p.1 = bid then (p.1, m) else p)) :
    (i = bid ∧ x = m) ∨ (i ≠ bid ∧ (i, x) ∈ st) := by
  rw [List.mem_map] at h
  obtain ⟨p, hp, hf⟩ := h
  by_cases hpb : p.1 = bid
  · rw [if_pos hpb] at hf
    injection hf with h1 h2
    left
    constructor
    · rw [← h1]; exact hpb
    · exact h2.symm
  · rw [if_neg hpb] at hf
    right
    rw [hf] at hp hpb
    exact ⟨hpb, hp⟩

theorem noConflicts_create {st st' : State} {raw : BookingReq} {today : Date}
    {now : Nat} {draws : List Nat} {r : Except Err Booking}
    (hnc : NoConflicts st) (h : create_booking st raw today now draws = (r, st')) :
    NoConflicts st' := by
  cases r with
  | error er => rw [create_err_state h]; exact hnc
  | ok stored =>
    obtain ⟨b, bid, unavail, hval, hun, hm, hgen, hrec, hst'⟩ := create_ok_shape h
    obtain ⟨qs, qe, hqs, hqe, haux⟩ := get_unavailable_ok hun
    subst hst'
    intro i x j y hx hy hij hcl hdate hov
    rw [List.mem_append] at hx hy
    rcases hx with hx | hx
    · rcases hy with hy | hy
      · exact hnc i x j y hx hy hij hcl hdate hov
      · -- x is an old booking, y is the new one
        simp only [List.mem_singleton] at hy
        injection hy with hy1 hy2
        subst hy1
        subst hy2
        subst hrec
        obtain ⟨s, e, s', e', hxs, hxe, hys, hye, hlt⟩ := hov
        simp only at hys hye hdate hcl
        rw [hqs] at hys
        rw [hqe] at hye
        injection hys with hys
        injection hye with hye
        subst hys
        subst hye
        obtain ⟨s2, e2, hs2, he2, hmem⟩ :=
          unavailAux_sound haux i x hx (by simp) hdate
        rw [hxs] at hs2
        rw [hxe] at he2
        injection hs2 with hs2
        injection he2 with he2
        subst hs2
        subst he2
        have : strUpper x.classroom ∈ unavail := hmem ⟨by omega, by omega⟩
        rw [hcl] at this
        exact hm this
    · rcases hy with hy | hy
      · -- x is the new booking, y is an old one
        simp only [List.mem_singleton] at hx
        injection hx with hx1 hx2
        subst hx1
        subst hx2
        subst hrec
        obtain ⟨s, e, s', e', hxs, hxe, hys, hye, hlt⟩ := hov
        simp only at hxs hxe hdate hcl
        rw [hqs] at hxs
        rw [hqe] at hxe
        injection hxs with hxs
        injection hxe with hxe
        subst hxs
        subst hxe
        obtain ⟨s2, e2, hs2, he2, hmem⟩ :=
          unavailAux_sound haux j y hy (by simp) hdate.symm
        rw [hys] at hs2
        rw [hye] at he2
        injection hs2 with hs2
        injection he2 with he2
        subst hs2
        subst he2
        have : strUpper y.classroom ∈ unavail := hmem ⟨by omega, by omega⟩
        rw [← hcl] at this
        exact hm this
      · simp only [List.mem_singleton] at hx hy
        injection hx with hx1 _
        injection hy with hy1 _
        exact hij (hx1.trans hy1.symm)
theorem noConflicts_change {st st' : State} {booking_id : Nat} {raw : UpdateReq}
    {name : String} {today : Date} {now : Nat} {r : Except Err Booking}
    (hnc : NoConflicts st) (h : change_booking st booking_id raw name today now = (r, st')) :
    NoConflicts st' := by
  cases r with
  | error er => rw [change_err_state h]; exact hnc
  | ok merged =>
    obtain ⟨u, old, unavail, hu, hold, hname, hmerged, hvt, hun, hm, hst'⟩ :=
      change_ok_shape h
    obtain ⟨qs, qe, hqs, hqe, haux⟩ := get_unavailable_ok hun
    subst hst'
    intro i x j y hx hy hij hcl hdate hov
    rcases mem_map_replace hx with ⟨hib, hxm⟩ | ⟨hib, hx2⟩
    · rcases mem_map_replace hy with ⟨hjb, hym⟩ | ⟨hjb, hy2⟩
      · exact hij (hib.trans hjb.symm)
      · -- x is the merged booking, y an untouched one
        subst hxm
        subst hib
        obtain ⟨s, e, s', e', hxs, hxe, hys, hye, hlt⟩ := hov
        rw [hqs] at hxs
        rw [hqe] at hxe
        injection hxs with hxs
        injection hxe with hxe
        subst hxs
        subst hxe
        obtain ⟨s2, e2, hs2, he2, hmem⟩ :=
          unavailAux_sound haux j y hy2
            (by intro hcon; injection hcon with hcon; exact hjb hcon.symm) hdate.symm
        rw [hys] at hs2
        rw [hye] at he2
        injection hs2 with hs2
        injection he2 with he2
        subst hs2
        subst he2
        have hyin : strUpper y.classroom ∈ unavail := hmem ⟨by omega, by omega⟩
        rw [← hcl] at hyin
        exact hm hyin
    · rcases mem_map_replace hy with ⟨hjb, hym⟩ | ⟨hjb, hy2⟩
      · -- y is the merged booking, x an untouched one
        subst hym
        subst hjb
        obtain ⟨s, e, s', e', hxs, hxe, hys, hye, hlt⟩ := hov
        rw [hqs] at hys
        rw [hqe] at hye
        injection hys with hys
        injection hye with hye
        subst hys
        subst hye
        obtain ⟨s2, e2, hs2, he2, hmem⟩ :=
          unavailAux_sound haux i x hx2
            (by intro hcon; injection hcon with hcon; exact hib hcon.symm) hdate
        rw [hxs] at hs2
        rw [hxe] at he2
        injection hs2 with hs2
        injection he2 with he2
        subst hs2
        subst he2
        have hxin : strUpper x.classroom ∈ unavail := hmem ⟨by omega, by omega⟩
        rw [hcl] at hxin
        exact hm hxin
      · exact hnc i x j y hx2 hy2 hij hcl hdate hov

theorem noConflicts_delete {st st' : State} {booking_id : Nat} {name : String}
    {r : Except Err Unit}
    (hnc : NoConflicts st) (h : delete_booking st booking_id name = (r, st')) :
    NoConflicts st' := by
  cases r with
  | error er => rw [delete_err_state h]; exact hnc
  | ok u =>
    cases u
    obtain ⟨b, hb, hname, hst'⟩ := delete_ok_shape h
    subst hst'
    intro i x j y hx hy
    rw [List.mem_filter] at hx hy
    exact hnc i x j y hx.1 hy.1
theorem not_timesOverlap_left {b c : Booking} (e s' : Nat)
    (he : parseTime b.end_time = some e) (hs' : parseTime c.start_time = some s')
    (h : e ≤ s') : ¬ timesOverlap b c := by
  rintro ⟨s1, e1, s1', e1', h1, h2, h3, h4, hlt⟩
  rw [he] at h2
  rw [hs'] at h3
  injection h2 with h2
  injection h3 with h3
  omega

theorem not_timesOverlap_right {b c : Booking} (s e' : Nat)
    (hs : parseTime b.start_time = some s) (he' : parseTime c.end_time = some e')
    (h : e' ≤ s) : ¬ timesOverlap b c := by
  rintro ⟨s1, e1, s1', e1', h1, h2, h3, h4, hlt⟩
  rw [hs] at h1
  rw [he'] at h4
  injection h1 with h1
  injection h4 with h4
  omega

theorem noConflicts_seed : NoConflicts seedState := by
  intro i b j c hb hc hij hcl hdate hov
  simp only [seedState, List.mem_cons, List.not_mem_nil, or_false, Prod.mk.injEq] at hb hc
  rcases hb with ⟨rfl, rfl⟩ | ⟨rfl, rfl⟩ | ⟨rfl, rfl⟩ | ⟨rfl, rfl⟩ <;>
    rcases hc with ⟨rfl, rfl⟩ | ⟨rfl, rfl⟩ | ⟨rfl, rfl⟩ | ⟨rfl, rfl⟩ <;>
    first
      | exact hij rfl
      | exact absurd hcl (by decide)
      | exact not_timesOverlap_left 600 600 (by decide) (by decide) le_rfl hov
      | exact not_timesOverlap_right 600 600 (by decide) (by decide) le_rfl hov
/-- C1: For every state of the bookings map reachable from the seed state by
any sequence of create, update, and delete operations, no two distinct
stored bookings have the same classroom and the same booking_date with
overlapping half-open [start_time, end_time) intervals. -/
theorem reachable_noConflicts {st : State} (h : Reachable st) : NoConflicts st := by
  induction h with
  | seed => exact noConflicts_seed
  | create _ hop ih => exact noConflicts_create ih hop
  | update _ hop ih => exact noConflicts_change ih hop
  | remove _ hop ih => exact noConflicts_delete ih hop

theorem reachable_noConflicts_witness :
    Reachable seedState ∧
    ¬ timesOverlap ⟨1, "Joel", "A401", 20241112, "08:30", "10:00"⟩
      ⟨4, "Karin", "A401", 20241112, "10:00", "15:00"⟩ :=
  ⟨Reachable.seed,
   reachable_noConflicts Reachable.seed 1 ⟨1, "Joel", "A401", 20241112, "08:30", "10:00"⟩
     4 ⟨4, "Karin", "A401", 20241112, "10:00", "15:00"⟩
     (by decide) (by decide) (by decide) rfl rfl⟩
/-- C2: A stored booking's classroom is reported unavailable exactly when
some booking on the queried date (not excluded) strictly overlaps the query
under half-open semantics (`existing.end > query.start` and
`existing.start < query.end`); a merely abutting booking contributes
nothing, and creating a booking starting exactly at an existing booking's
end time succeeds (seed state: A401 is free 15:00–16:00 although booked
until 15:00). -/
theorem unavailable_iff_strict_overlap :
    (∀ (st : State) (d : Date) (ss es : String) (ex : Option Nat) (out : List String)
       (qs qe : Nat), get_unavailable_classrooms st d ss es ex = .ok out →
       parseTime ss = some qs → parseTime es = some qe →
       ∀ cl, cl ∈ out ↔ ∃ i b s e, (i, b) ∈ st ∧ ex ≠ some i ∧ b.booking_date = d ∧
         parseTime b.start_time = some s ∧ parseTime b.end_time = some e ∧
         qs < e ∧ s < qe ∧ cl = strUpper b.classroom) ∧
    create_booking seedState ⟨"Lee", "A401", 20241112, "15:00", "16:00"⟩ 20241110 0
        [12345678] =
      (.ok ⟨12345678, "Lee", "A401", 20241112, "15:00", "16:00"⟩,
       seedState ++ [(12345678, ⟨12345678, "Lee", "A401", 20241112, "15:00", "16:00"⟩)]) := by
  constructor
  · intro st d ss es ex out qs qe h hqs hqe cl
    obtain ⟨qs', qe', hqs', hqe', haux⟩ := get_unavailable_ok h
    rw [hqs] at hqs'
    rw [hqe] at hqe'
    injection hqs' with hqs'
    injection hqe' with hqe'
    subst hqs'
    subst hqe'
    exact unavailAux_mem haux cl
  · rfl

theorem unavailable_iff_strict_overlap_witness :
    ("B204" ∈ ["A401", "C301", "B204", "A401"] ↔
      ∃ i b s e, (i, b) ∈ seedState ∧ (none : Option Nat) ≠ some i ∧
        b.booking_date = 20241112 ∧ parseTime b.start_time = some s ∧
        parseTime b.end_time = some e ∧ 540 < e ∧ s < 660 ∧
        "B204" = strUpper b.classroom) :=
  unavailable_iff_strict_overlap.1 seedState 20241112 ("09:00") ("11:00") none
    ["A401", "C301", "B204", "A401"] 540 660 rfl rfl rfl ("B204")
/-- C6 (counterexample): on the seed state — reachable, and satisfying the
no-conflict invariant — the availability query 09:00–11:00 on 2024-11-12
returns A401 twice, because two A401 bookings both strictly overlap the
query: the result is a Python list built with `append`, not a set. -/
theorem unavailable_result_with_duplicates :
    ∃ l, get_unavailable_classrooms seedState 20241112 ("09:00") ("11:00") none = .ok l ∧
      ¬ l.Nodup :=
  ⟨["A401", "C301", "B204", "A401"], rfl, by decide⟩

/-- C6 (amended): the availability index returns a list in which every
element is the uppercased classroom code of some booking on the queried
date (excluded id skipped) whose stored interval strictly overlaps the
query; the same code may occur several times when several bookings of one
classroom conflict. -/
theorem unavailable_elems_are_conflicting_classrooms :
    ∀ (st : State) (d : Date) (ss es : String) (ex : Option Nat) (out : List String),
      get_unavailable_classrooms st d ss es ex = .ok out →
      ∃ qs qe, parseTime ss = some qs ∧ parseTime es = some qe ∧
        ∀ cl ∈ out, ∃ i b s e, (i, b) ∈ st ∧ ex ≠ some i ∧ b.booking_date = d ∧
          parseTime b.start_time = some s ∧ parseTime b.end_time = some e ∧
          qs < e ∧ s < qe ∧ cl = strUpper b.classroom := by
  intro st d ss es ex out h
  obtain ⟨qs, qe, hqs, hqe, haux⟩ := get_unavailable_ok h
  exact ⟨qs, qe, hqs, hqe, fun cl hcl => (unavailAux_mem haux cl).mp hcl⟩

theorem unavailable_elems_are_conflicting_classrooms_witness :
    ∃ qs qe, parseTime ("15:00") = some qs ∧ parseTime ("16:00") = some qe ∧
      ∀ cl ∈ ([] : List String), ∃ i b s e, (i, b) ∈ seedState ∧
        (none : Option Nat) ≠ some i ∧ b.booking_date = 20241112 ∧
        parseTime b.start_time = some s ∧ parseTime b.end_time = some e ∧
        qs < e ∧ s < qe ∧ cl = strUpper b.classroom :=
  unavailable_elems_are_conflicting_classrooms seedState 20241112 ("15:00") ("16:00")
    none [] rfl
/-- C3: an update that supplies only a new `end_time` never reaches the
merged-record conflict check: the inherited `end_time` validator of the
partial model calls `strptime` on the absent `start_time` (`None`), raising
a 422 malformed-time error instead of the expected 409 Conflict — here on
seed booking 1 with new end 16:00, although the merged record
(A401, 2024-11-12, 08:30–16:00) does overlap booking 4 (A401 10:00–15:00),
as the availability scan on the merged window confirms. -/
theorem update_end_time_only_rejected_as_malformed :
    change_booking seedState 1 ⟨none, none, none, none, some ("16:00")⟩ ("Joel")
        20241110 0 = (.error .malformedTime, seedState) ∧
    Err.malformedTime ≠ Err.conflict ∧
    get_unavailable_classrooms seedState 20241112 ("08:30") ("16:00") (some 1) =
      .ok ["C301", "B204", "A401"] ∧
    "A401" ∈ ["C301", "B204", "A401"] := by
  refine ⟨rfl, by decide, rfl, by decide⟩
theorem convert_ok_of_parse {ss es : String} {a b : Nat}
    (hps : parseTime ss = some a) (hpe : parseTime es = some b) :
    convert_to_time_objects (some ss) (some es) = .ok (a, b) := by
  dsimp only [convert_to_time_objects]
  rw [hps, hpe]

/-- C4: every query whose two times parse, lie within 07:00–18:00, sit on
:00/:30 boundaries, span at least 60 minutes, and are not in the past when
the date is today, is accepted by `validate_times`. -/
theorem validate_times_accepts {d today : Date} {now a b : Nat} {ss es : String}
    (hps : parseTime ss = some a) (hpe : parseTime es = some b)
    (ha : 420 ≤ a) (hb : b ≤ 1080)
    (ham : a % 60 = 0 ∨ a % 60 = 30) (hbm : b % 60 = 0 ∨ b % 60 = 30)
    (hdur : 60 ≤ (b : Int) - (a : Int))
    (hpast : d = today → ¬ (a * 60 < now ∨ b * 60 < now)) :
    validate_times d today now (some ss) (some es) = .ok () := by
  unfold validate_times
  rw [convert_ok_of_parse hps hpe]
  dsimp only
  rw [if_neg (by omega)]
  rw [if_neg (not_not_intro ⟨ham, hbm⟩)]
  rw [if_neg (fun hc => hpast hc.1 hc.2)]
  rw [if_neg (by omega)]

theorem validate_times_accepts_witness :
    validate_times 20241112 20241110 0 (some ("08:00")) (some ("09:00")) = .ok () :=
  validate_times_accepts rfl rfl (by decide) (by decide) (by decide) (by decide)
    (by decide) (fun h => absurd h (by decide))

/-- C5: once parsing, operating hours, alignment and the past-time check
pass, `validate_times` fails with TooShort exactly when the same-day signed
difference `end - start` is below 60 minutes; in particular every window
with `end_time ≤ start_time` is rejected as TooShort. -/
theorem validate_times_tooShort_iff {d today : Date} {now a b : Nat} {ss es : String}
    (hps : parseTime ss = some a) (hpe : parseTime es = some b)
    (hhours : ¬ (a < 420 ∨ 1080 < b))
    (halign : (a % 60 = 0 ∨ a % 60 = 30) ∧ (b % 60 = 0 ∨ b % 60 = 30))
    (hpast : ¬ (d = today ∧ (a * 60 < now ∨ b * 60 < now))) :
    (validate_times d today now (some ss) (some es) = .error .tooShort ↔
      (b : Int) - (a : Int) < 60) ∧
    (b ≤ a → validate_times d today now (some ss) (some es) = .error .tooShort) := by
  have hopen : validate_times d today now (some ss) (some es) =
      if (b : Int) - (a : Int) < 60 then .error .tooShort else .ok () := by
    unfold validate_times
    rw [convert_ok_of_parse hps hpe]
    dsimp only
    rw [if_neg hhours]
    rw [if_neg (not_not_intro halign)]
    rw [if_neg hpast]
  rw [hopen]
  constructor
  · by_cases hd : (b : Int) - (a : Int) < 60
    · rw [if_pos hd]
      simp [hd]
    · rw [if_neg hd]
      simp [hd]
  · intro hba
    rw [if_pos (by omega)]

theorem validate_times_tooShort_witness :
    validate_times 20241112 20241110 0 (some ("08:00")) (some ("08:30")) =
      .error .tooShort :=
  (validate_times_tooShort_iff (show parseTime ("08:00") = some 480 from rfl)
    (show parseTime ("08:30") = some 510 from rfl) (by decide) (by decide)
    (by decide)).1.mpr (by decide)
theorem find?_append_none {l1 l2 : List (Nat × Booking)} {p : Nat × Booking → Bool}
    (h : l1.find? p = none) : (l1 ++ l2).find? p = l2.find? p := by
  induction l1 with
  | nil => rfl
  | cons x xs ih =>
    rw [List.find?_cons] at h
    rw [List.cons_append, List.find?_cons]
    cases hp : p x with
    | false =>
      rw [hp] at h
      exact ih h
    | true =>
      rw [hp] at h
      simp at h

theorem lookup_append_fresh {st : State} {bid : Nat} {b : Booking}
    (h : keyMem bid st = false) : lookup (st ++ [(bid, b)]) bid = some b := by
  unfold lookup
  have hnone : st.find? (fun p => p.1 == bid) = none := by
    rw [List.find?_eq_none]
    intro x hx
    unfold keyMem at h
    rw [List.any_eq_false] at h
    exact fun hc => absurd hc (h x hx)
  rw [find?_append_none hnone]
  simp

/-- C7: creating a booking and then reading it with the returned id and the
submitted owner name returns exactly the submitted fields with the
classroom uppercased, plus the generated id. -/
theorem create_then_get_roundtrip {st st' : State} {raw : BookingReq} {today : Date}
    {now : Nat} {draws : List Nat} {stored : Booking}
    (h : create_booking st raw today now draws = (.ok stored, st')) :
    get_booking st' stored.id raw.name = (.ok stored, st') ∧
    stored.name = raw.name ∧ stored.classroom = strUpper raw.classroom ∧
    stored.booking_date = raw.booking_date ∧ stored.start_time = raw.start_time ∧
    stored.end_time = raw.end_time := by
  obtain ⟨b, bid, unavail, hval, hun, hm, hgen, hrec, hst'⟩ := create_ok_shape h
  obtain ⟨hb, hcmem, hdate', hvt⟩ := validateBookingModel_ok hval
  obtain ⟨hfresh, hdraw⟩ := generate_id_some hgen
  subst hb
  subst hrec
  subst hst'
  refine ⟨?_, rfl, rfl, rfl, rfl, rfl⟩
  unfold get_booking
  dsimp only
  rw [lookup_append_fresh hfresh]
  dsimp only
  rw [if_neg (not_not_intro rfl)]

theorem create_then_get_roundtrip_witness :
    get_booking
        (seedState ++ [(12345678, ⟨12345678, "Lee", "A401", 20241112, "15:00", "16:00"⟩)])
        12345678 ("Lee") =
      (.ok ⟨12345678, "Lee", "A401", 20241112, "15:00", "16:00"⟩,
       seedState ++ [(12345678, ⟨12345678, "Lee", "A401", 20241112, "15:00", "16:00"⟩)]) :=
  (create_then_get_roundtrip
    (show create_booking seedState ⟨"Lee", "a401", 20241112, "15:00", "16:00"⟩ 20241110 0
        [12345678] =
      (.ok ⟨12345678, "Lee", "A401", 20241112, "15:00", "16:00"⟩,
       seedState ++ [(12345678, ⟨12345678, "Lee", "A401", 20241112, "15:00", "16:00"⟩)])
      from rfl)).1
/-- C8: reading a booking fails NotFound when the id is absent, otherwise
fails Forbidden exactly when the stored owner name differs from the
caller's name case-insensitively, otherwise returns the stored record; the
bookings map is never changed. -/
theorem get_booking_spec (st : State) (booking_id : Nat) (name : String) :
    (lookup st booking_id = none →
      get_booking st booking_id name = (.error .notFound, st)) ∧
    (∀ b, lookup st booking_id = some b →
      (strLower b.name ≠ strLower name →
        get_booking st booking_id name = (.error .forbidden, st)) ∧
      (strLower b.name = strLower name →
        get_booking st booking_id name = (.ok b, st))) ∧
    (get_booking st booking_id name).2 = st := by
  refine ⟨?_, ?_, ?_⟩
  · intro hnone
    unfold get_booking
    rw [hnone]
  · intro b hb
    constructor
    · intro hne
      unfold get_booking
      rw [hb]
      dsimp only
      rw [if_pos hne]
    · intro heq
      unfold get_booking
      rw [hb]
      dsimp only
      rw [if_neg (not_not_intro heq)]
  · unfold get_booking
    cases hl : lookup st booking_id with
    | none => rfl
    | some b =>
      dsimp only
      by_cases hname : strLower b.name ≠ strLower name
      · rw [if_pos hname]
      · rw [if_neg hname]

theorem get_booking_spec_witness :
    get_booking seedState 1 ("JOEL") =
      (.ok ⟨1, "Joel", "A401", 20241112, "08:30", "10:00"⟩, seedState) ∧
    get_booking seedState 99 ("Joel") = (.error .notFound, seedState) ∧
    get_booking seedState 1 ("Sami") = (.error .forbidden, seedState) :=
  ⟨((get_booking_spec seedState 1 ("JOEL")).2.1 _ rfl).2 (by decide),
   (get_booking_spec seedState 99 ("Joel")).1 rfl,
   ((get_booking_spec seedState 1 ("Sami")).2.1 _ rfl).1 (by decide)⟩
/-- C9 (counterexample): the id-generation retry loop has no guaranteed
termination: against a state holding one 8-digit id (far fewer than the
90,000,000 ids of the range) there is a sequence of in-range draws — the
stored id over and over — on which the loop returns nothing at every finite
unrolling. -/
theorem generate_id_no_guaranteed_termination :
    ∃ (f : Nat → Nat) (st : State), st.length < 90000000 ∧
      (∀ n, 10000000 ≤ f n ∧ f n ≤ 99999999) ∧
      ∀ fuel k, genIdStream f st fuel k = none := by
  refine ⟨fun _ => 10000001,
    [(10000001, ⟨10000001, "Joel", "A401", 20241112, "08:30", "10:00"⟩)],
    by decide, fun n => ?_, ?_⟩
  · show 10000000 ≤ 10000001 ∧ 10000001 ≤ 99999999
    decide
  intro fuel
  induction fuel with
  | zero => intro k; rfl
  | succ n ih =>
    intro k
    unfold genIdStream
    rw [if_pos (by decide)]
    exact ih (k + 1)

/-- C9 (amended): whenever the sequence of drawn ids contains one that is
not yet a key, `generate_id` terminates at the first such draw and returns
it — an id absent from the map, 8-digit whenever all draws are in range —
and such fresh ids always exist while the map holds fewer than 90,000,000
of them; termination is only guaranteed conditionally on the draws, not
for every map as the claim states. -/
theorem generate_id_terminates_on_fresh_draw {draws : List Nat} {st : State}
    (hex : ∃ d ∈ draws, keyMem d st = false) :
    (∃ bid, generate_id draws st = some bid ∧ keyMem bid st = false ∧ bid ∈ draws ∧
      ((∀ d ∈ draws, 10000000 ≤ d ∧ d ≤ 99999999) →
        10000000 ≤ bid ∧ bid ≤ 99999999)) ∧
    (st.length < 90000000 → ∃ fresh, 10000000 ≤ fresh ∧ fresh ≤ 99999999 ∧
      keyMem fresh st = false) := by
  constructor
  · obtain ⟨d0, hd0, hk0⟩ := hex
    have hsome : (draws.find? (fun d => ! keyMem d st)).isSome := by
      rw [List.find?_isSome]
      exact ⟨d0, hd0, by simp [hk0]⟩
    obtain ⟨bid, hbid⟩ := Option.isSome_iff_exists.mp hsome
    have h1 := List.find?_some hbid
    have h2 := List.mem_of_find?_eq_some hbid
    simp at h1
    exact ⟨bid, hbid, h1, h2, fun hall => hall bid h2⟩
  · intro hlen
    by_contra hno
    push_neg at hno
    have hsub : Finset.Ico 10000000 100000000 ⊆ (keysOf st).toFinset := by
      intro x hx
      rw [Finset.mem_Ico] at hx
      rw [List.mem_toFinset]
      rw [← keyMem_iff]
      cases hkm : keyMem x st with
      | true => rfl
      | false => exact absurd hkm (hno x hx.1 (by omega))
    have hcard := Finset.card_le_card hsub
    rw [Nat.card_Ico] at hcard
    have hlc : (keysOf st).toFinset.card ≤ (keysOf st).length :=
      List.toFinset_card_le _
    have hk : (keysOf st).length = st.length := by simp [keysOf]
    omega

theorem generate_id_terminates_on_fresh_draw_witness :
    ∃ bid, generate_id [12345678] seedState = some bid ∧
      keyMem bid seedState = false ∧ bid ∈ [12345678] ∧
      ((∀ d ∈ [12345678], 10000000 ≤ d ∧ d ≤ 99999999) →
        10000000 ≤ bid ∧ bid ≤ 99999999) :=
  (generate_id_terminates_on_fresh_draw (by decide)).1
/-- C10: whenever a create, update, or delete request fails with any error,
the bookings map after the operation is exactly the map before it — state
changes only on success. -/
theorem failed_ops_preserve_state (st : State) :
    (∀ raw today now draws er st',
      create_booking st raw today now draws = (.error er, st') → st' = st) ∧
    (∀ booking_id raw name today now er st',
      change_booking st booking_id raw name today now = (.error er, st') → st' = st) ∧
    (∀ booking_id name er st',
      delete_booking st booking_id name = (.error er, st') → st' = st) :=
  ⟨fun _ _ _ _ _ _ h => create_err_state h,
   fun _ _ _ _ _ _ _ h => change_err_state h,
   fun _ _ _ _ h => delete_err_state h⟩

theorem failed_ops_preserve_state_witness :
    create_booking seedState ⟨"Lee", "Z999", 20241113, "08:00", "09:30"⟩ 20241112 0
        [12345678] = (.error .invalidClassroom, seedState) ∧
    change_booking seedState 99 ⟨none, none, none, none, none⟩ ("Joel") 20241112 0 =
      (.error .notFound, seedState) ∧
    delete_booking seedState 1 ("Sami") = (.error .forbidden, seedState) ∧
    seedState = seedState := by
  have h1 : create_booking seedState ⟨"Lee", "Z999", 20241113, "08:00", "09:30"⟩
      20241112 0 [12345678] = (.error .invalidClassroom, seedState) := rfl
  have h2 : change_booking seedState 99 ⟨none, none, none, none, none⟩ ("Joel")
      20241112 0 = (.error .notFound, seedState) := rfl
  have h3 : delete_booking seedState 1 ("Sami") = (.error .forbidden, seedState) := rfl
  exact ⟨h1, h2, h3,
    (failed_ops_preserve_state seedState).1 _ 20241112 0 [12345678] .invalidClassroom
      seedState h1⟩
